import Mathlib

/-!
Verification of the surrealguard static analyzer core (crates/core/src/analyzer).

This file gives a shallow embedding of the analyzer fragment exercised by the
properties under study:

* the semantic type algebra `surrealdb::sql::Kind` / `surrealdb::sql::Literal`
  (the `surrealdb` sql AST the analyzer is written against);
* the schema context `AnalyzerContext` of `analyzer/context.rs` (ordered
  definition list, inferred parameters, auth subject, permission map);
* the statement analyzers `analyze_select` (`statements/data/select.rs`,
  including the `resolve_fetch` algorithm), `analyze_create`
  (`statements/data/create.rs`), `analyze_delete` (`statements/data/delete.rs`),
  the dispatcher `analyze_statement` (`statements/mod.rs`) and the top-level
  batch combination of `analyze` (`analyzer/mod.rs`, post-parse part);
* the second context evolution `analyzer/context/mod.rs` (`create_child` and
  its sub-contexts).

Modelling conventions:
* machine strings are lists of characters (`Str`), with the string primitives
  the source uses (`trim`, `to_lowercase`, `split`, `contains`, ordering)
  defined structurally below so that every embedded function is executable by
  the kernel; lowercasing and ordering agree with Rust on the ASCII
  identifiers the analyzer handles;
* `Vec`/slice iteration is `List` recursion; `BTreeMap<String, _>` is an
  association list kept sorted by key via `btInsert` (insertion on an existing
  key overwrites the value in place, exactly like `BTreeMap::insert`);
* fallible Rust code returning `AnalyzerResult` is embedded in the `AOut`
  outcome type; a Rust `todo!()` or out-of-bounds indexing panic is the
  `AOut.panic` outcome (the computation aborts rather than returning);
* the embedded AST covers the statement fragment the studied properties range
  over: FROM targets that are plain tables, record things or parameters;
  field expressions that are plain (dotted) field idioms or the wildcard.
  Graph-traversal parts, destructure parts, subqueries and function calls are
  outside the fragment, so the `analyze_select` branches that fire only on
  those AST shapes do not arise.
-/

namespace SurrealGuard

/-- Machine strings, as character lists (a faithful model of Rust `String`
contents for the identifier data the analyzer manipulates). -/
abbrev Str := List Char

/-- Conversion from a Lean string literal to `Str`. -/
def str (s : String) : Str := s.data

/-- Lexicographic order on strings (Rust's `Ord for String` on the ASCII
identifiers involved). -/
def strLt : Str → Str → Bool
  | [], [] => false
  | [], _ :: _ => true
  | _ :: _, [] => false
  | a :: as, b :: bs =>
    if a < b then true
    else if b < a then false
    else strLt as bs

/-- Rust `str::trim`: remove leading and trailing whitespace. -/
def strTrim (s : Str) : Str :=
  ((s.dropWhile Char.isWhitespace).reverse.dropWhile Char.isWhitespace).reverse

/-- Rust `str::to_lowercase` (character-wise lowercasing; identical to Rust
on ASCII identifiers). -/
def strToLower (s : Str) : Str := s.map Char.toLower

/-- The normalization `s.trim().to_lowercase()` used throughout
`select.rs`. -/
def normStr (s : Str) : Str := strToLower (strTrim s)

/-- Rust `str::split` on a one-character separator: the list of (possibly
empty) chunks between separator occurrences. -/
def splitOnChar (sep : Char) : Str → List Str
  | [] => [[]]
  | c :: rest =>
    if c = sep then [] :: splitOnChar sep rest
    else
      match splitOnChar sep rest with
      | [] => [[c]]
      | chunk :: chunks => (c :: chunk) :: chunks

/-- Embedding of `surrealdb::sql::Kind` restricted to the variants the
analyzer fragment constructs or inspects.  `Kind::Literal(Literal::X(..))` is
embedded as the `litX ..` constructors (the `Literal` payload is inlined). -/
inductive Kind where
  | any
  | null
  | bool
  | number
  | string
  | duration
  | datetime
  | uuid
  | bytes
  | object
  | range
  | geometry (subtypes : List Str)
  | record (tables : List Str)
  | option (inner : Kind)
  | either (kinds : List Kind)
  | array (inner : Kind) (len : Option Nat)
  | litString (s : Str)
  | litNumber (n : Int)
  | litBool (b : Bool)
  | litArray (elems : List Kind)
  | litObject (fields : List (Str × Kind))
  | litDiscObject (discriminant : Str) (variants : List (List (Str × Kind)))

/-- Embedding of `surrealdb::sql::Part` restricted to plain field segments
(`Part::Field`), the only part shape in the modeled statement fragment. -/
inductive Part where
  | field (s : Str)
deriving DecidableEq

/-- An `Idiom` is its list of parts. -/
abbrev Idiom := List Part

/-- Rendering of a `Part` (a plain field renders as its identifier). -/
def partToString : Part → Str
  | .field s => s

/-- Rendering of an `Idiom`: field segments joined with `.` (the `Display`
implementation of `surrealdb::sql::Idiom` on plain field parts). -/
def idiomToString : Idiom → Str
  | [] => []
  | [p] => partToString p
  | p :: rest => partToString p ++ '.' :: idiomToString rest

/-- Embedding of `surrealdb::sql::Value` restricted to the value shapes the
modeled statements carry.  A `param` holds the parameter's text as the
analyzer observes it through the `Param`/`Ident` deref chain. -/
inductive Value where
  | table (name : Str)
  | thing (tb : Str) (id : Str)
  | param (name : Str)
  | object (fields : List (Str × Value))

/-- Embedding of `DefineFieldStatement` (`what` = owning table, `name` =
field path, `kind` = declared type).  Asserts, defaults and permission
expressions are absent in the modeled fragment (`DEFINE` statements carrying
them trigger extra expression analysis none of the studied properties
exercise). -/
structure DefineFieldStatement where
  what : Str
  name : Idiom
  kind : Option Kind

/-- Embedding of `DefineTableStatement` restricted to its name (relation
metadata and permissions are not consulted by the modeled fragment). -/
structure DefineTableStatement where
  name : Str

/-- Embedding of `surrealdb::sql::statements::DefineStatement` for the
table/field sub-kinds the modeled fragment stores in the context. -/
inductive DefineStatement where
  | table (t : DefineTableStatement)
  | field (f : DefineFieldStatement)

/-- Embedding of `AnalyzerError` (`analyzer/error.rs`), restricted to the
variants the modeled code paths produce. -/
inductive AnalyzerError where
  | fieldNotFound (field : Str) (context : Str)
  | tableNotFound (table : Str)
  | unexpectedSyntax
  | missingAuth
  | schemaViolation (message : Str) (table : Option Str) (field : Option Str)
  | unimplemented (message : Str)
deriving DecidableEq

/-- Outcome of running a fallible analyzer function: a normal `Ok` value, a
returned structured error, or a Rust panic (`todo!()` or an out-of-bounds
index), which terminates analysis without returning. -/
inductive AOut (α : Type) where
  | panic
  | err (e : AnalyzerError)
  | ok (a : α)

/-- Embedding of the `AnalyzerContext` of `analyzer/context.rs`: the ordered
definition list, the inferred-parameter list, the optional auth subject and
the permission-justification map. -/
structure AnalyzerContext where
  definitions : List DefineStatement
  inferredParams : List (Str × Kind)
  auth : Option Str
  permissions : List (Str × Str)

/-- `AnalyzerContext::new`. -/
def AnalyzerContext.new : AnalyzerContext := ⟨[], [], none, []⟩

/-- Sorted-association-list insert, the embedding of `BTreeMap::insert` for
string keys: keeps keys strictly increasing, overwriting the value when the
key is already present. -/
def btInsert (m : List (Str × Kind)) (k : Str) (v : Kind) : List (Str × Kind) :=
  match m with
  | [] => [(k, v)]
  | (k', v') :: rest =>
    if strLt k k' then (k, v) :: (k', v') :: rest
    else if k = k' then (k, v) :: rest
    else (k', v') :: btInsert rest k v

/-- `AnalyzerContext::find_table_definition`: first definition that is a
table definition with exactly the given name. -/
def AnalyzerContext.findTableDefinition (ctx : AnalyzerContext) (tableName : Str) :
    Option DefineStatement :=
  ctx.definitions.find? (fun d =>
    match d with
    | .table td => td.name == tableName
    | _ => false)

/-- `AnalyzerContext::get_field_definitions`: all field definitions owned by
the table, in definition order. -/
def AnalyzerContext.getFieldDefinitions (ctx : AnalyzerContext) (tableName : Str) :
    List DefineFieldStatement :=
  ctx.definitions.filterMap (fun d =>
    match d with
    | .field fd => if fd.what == tableName then some fd else none
    | _ => none)

/-- Exact lookup half of `AnalyzerContext::find_field_definition`: the first
field definition matching `(table, field path)` exactly. -/
def AnalyzerContext.findFieldExact (ctx : AnalyzerContext) (tableName : Str)
    (fieldIdiom : Idiom) : Option DefineFieldStatement :=
  ctx.definitions.findSome? (fun d =>
    match d with
    | .field fd => if fd.what == tableName && fd.name == fieldIdiom then some fd else none
    | _ => none)

/-- Parent-path retry loop of `find_field_definition`, driven on the reversed
path so the recursion is structural: try the exact path; on a miss with more
than one segment remaining, strip the last segment and retry. -/
def AnalyzerContext.findFieldRev (ctx : AnalyzerContext) (tableName : Str) :
    List Part → Option DefineFieldStatement
  | [] => ctx.findFieldExact tableName []
  | p :: rest =>
    match ctx.findFieldExact tableName ((p :: rest).reverse) with
    | some fd => some fd
    | none => if rest.isEmpty then none else ctx.findFieldRev tableName rest

/-- `AnalyzerContext::find_field_definition`: exact match on
`(table, field path)` first; on a miss with a multi-segment path, retry with
the parent path (last segment stripped), recursively. -/
def AnalyzerContext.findFieldDefinition (ctx : AnalyzerContext) (tableName : Str)
    (fieldIdiom : Idiom) : Option DefineFieldStatement :=
  ctx.findFieldRev tableName fieldIdiom.reverse

/-- `AnalyzerContext::build_full_table_type` (`context.rs`): fold every field
definition owned by the table that has a declared type into a
`Literal::Object` keyed by the rendered field name.  The Rust function always
returns `Ok`, so the embedding is total. -/
def AnalyzerContext.buildFullTableType (ctx : AnalyzerContext) (tableName : Str) : Kind :=
  .litObject ((ctx.getFieldDefinitions tableName).foldl
    (fun m fd =>
      match fd.kind with
      | some k => btInsert m (idiomToString fd.name) k
      | none => m) [])

/-- `AnalyzerContext::add_inferred_param`: push onto the inferred-parameter
list. -/
def AnalyzerContext.addInferredParam (ctx : AnalyzerContext) (name : Str) (kind : Kind) :
    AnalyzerContext :=
  { ctx with inferredParams := ctx.inferredParams ++ [(name, kind)] }

/-- `AnalyzerContext::infer_param_from_table`: record the full table type for
the parameter (always succeeds, like the Rust function). -/
def AnalyzerContext.inferParamFromTable (ctx : AnalyzerContext) (table param : Str) :
    AnalyzerContext :=
  ctx.addInferredParam param (ctx.buildFullTableType table)

/-- `AnalyzerContext::infer_param_from_field`: record the field's declared
type for the parameter; a missing declared type is a schema violation, a
missing field definition is `FieldNotFound`. -/
def AnalyzerContext.inferParamFromField (ctx : AnalyzerContext) (table : Str) (field : Idiom)
    (param : Str) : AOut AnalyzerContext :=
  match ctx.findFieldDefinition table field with
  | some fd =>
    match fd.kind with
    | some k => .ok (ctx.addInferredParam param k)
    | none => .err (.schemaViolation (str "Field type not defined") (some table)
        (some (idiomToString field)))
  | none => .err (.fieldNotFound (idiomToString field) table)

/-- `AnalyzerContext::resolve` (`context.rs`) on the modeled `Value`
fragment: tables and things resolve to record types, parameters (a grouped
arm) to `Any`, objects to the untyped `Object`.  All fragment arms return
`Ok` in the source. -/
def AnalyzerContext.resolveValue (_ctx : AnalyzerContext) : Value → Kind
  | .table t => .record [t]
  | .thing tb _ => .record [tb]
  | .param _ => .any
  | .object _ => .object

/-- The `resolve_fetch` algorithm of `select.rs` (`impl KindFetchExt for
Kind`).  With an empty chain a bare `Record` (or `Option<Record>`) is
expanded once into the first table's full schema and everything else is
returned unchanged.  With a nonempty chain: a `Record` whose table matches
the head segment is expanded and resolution continues with the tail; inside a
`Literal::Object` the fields whose normalized key equals the head segment are
resolved with the tail, a field holding `Array<Record>` being force-expanded
into a literal array of the full schema; a `Literal::DiscriminatedObject`
resolves each variant the same way with extra `Record`/`Array`/`Option`
special cases; an `Array`, `Either` or `Option` recurses with the same chain;
anything else is unchanged.  `build_full_table_type` always returns `Ok` in
the source, so its `if let Ok` guards always take the success branch. -/
def resolveFetch (k : Kind) (chain : List Str) (ctx : AnalyzerContext) : Kind :=
  match chain with
  | [] =>
    match k with
    | .record tables =>
      match tables.head? with
      | some t => ctx.buildFullTableType t
      | none => k
    | .option inner =>
      match inner with
      | .record tables =>
        match tables.head? with
        | some t => .option (ctx.buildFullTableType t)
        | none => k
      | _ => k
    | _ => k
  | seg :: rest =>
    match k with
    | .record tables =>
      let target := normStr seg
      match tables.find? (fun t => normStr t == target) with
      | some t => resolveFetch (ctx.buildFullTableType t) rest ctx
      | none => k
    | .litObject map =>
      .litObject (map.map (fun kv =>
        if normStr kv.1 == seg then
          match kv.2 with
          | .array inner _len =>
            match inner with
            | .record tables =>
              match tables.head? with
              | some t => (kv.1, Kind.litArray [ctx.buildFullTableType t])
              | none => (kv.1, resolveFetch kv.2 rest ctx)
            | _ => (kv.1, resolveFetch kv.2 rest ctx)
          | _ => (kv.1, resolveFetch kv.2 rest ctx)
        else kv))
    | .litDiscObject discriminant variants =>
      .litDiscObject discriminant (variants.map (fun variant =>
        variant.map (fun kv =>
          if normStr kv.1 == seg then
            match kv.2 with
            | .record tables =>
              match tables.head? with
              | some t => (kv.1, resolveFetch (ctx.buildFullTableType t) rest ctx)
              | none => (kv.1, resolveFetch kv.2 rest ctx)
            | .array inner len =>
              match inner with
              | .record tables =>
                match tables.head? with
                | some t => (kv.1, Kind.array (resolveFetch (ctx.buildFullTableType t) rest ctx) len)
                | none => (kv.1, resolveFetch kv.2 rest ctx)
              | _ => (kv.1, resolveFetch kv.2 rest ctx)
            | .option inner =>
              match inner with
              | .record tables =>
                match tables.head? with
                | some t => (kv.1, Kind.option (resolveFetch (ctx.buildFullTableType t) rest ctx))
                | none => (kv.1, resolveFetch kv.2 rest ctx)
              | .array arrayInner len =>
                match arrayInner with
                | .record tables =>
                  match tables.head? with
                  | some t =>
                    (kv.1, Kind.option (.array (resolveFetch (ctx.buildFullTableType t) rest ctx) len))
                  | none => (kv.1, resolveFetch kv.2 rest ctx)
                | _ => (kv.1, resolveFetch kv.2 rest ctx)
              | _ => (kv.1, resolveFetch kv.2 rest ctx)
            | _ => (kv.1, resolveFetch kv.2 rest ctx)
          else kv)))
    | .array inner len => .array (resolveFetch inner (seg :: rest) ctx) len
    | .either kinds =>
      .either (kinds.attach.map (fun kh => resolveFetch kh.1 (seg :: rest) ctx))
    | .option inner => .option (resolveFetch inner (seg :: rest) ctx)
    | _ => k
termination_by (chain.length, sizeOf k)
decreasing_by
  all_goals simp_wf
  all_goals
    first
      | (apply Prod.Lex.left
         omega)
      | (apply Prod.Lex.right
         try simp +arith
         try (have h := List.sizeOf_lt_of_mem kh.2; omega)
         try omega)

/-- Embedding of `surrealdb::sql::Field` (named `SelectField` here): the
wildcard `Field::All` or a single expression with an optional alias.  In the
modeled fragment a field expression is always a plain idiom (`Value::Idiom`);
the `Value::Function` and catch-all arms of `analyze_select`'s field loop are
outside it. -/
inductive SelectField where
  | all
  | single (expr : Idiom) (aliasName : Option Idiom)

/-- Embedding of `surrealdb::sql::statements::SelectStatement` restricted to
the clauses `analyze_select` consults: the field expressions with the VALUE
flag (`expr.0` / `expr.1`), the FROM targets (`what.0`), the OMIT idioms, the
ONLY flag and the FETCH clause.  Each FETCH entry is carried as its rendered
text (`fetch.0.to_string()`), since `analyze_select` only uses that
rendering. -/
structure SelectStatement where
  exprFields : List SelectField
  isValue : Bool
  what : List Value
  omitClause : Option (List Idiom)
  only : Bool
  fetch : Option (List Str)

/-- Record-id stripping in `analyze_select` (lines 168-172): a raw name
containing `:` is cut at the first `:`. -/
def stripRecordId (raw : Str) : Str :=
  if raw.contains ':' then (splitOnChar ':' raw).headD raw else raw

/-- Splitting one FETCH entry into its chain of lowercased segments
(`fetch.0.to_string().trim().to_lowercase()` split on `.`). -/
def fetchSegments (f : Str) : List Str := splitOnChar '.' (normStr f)

/-- Folding every FETCH entry of the statement over a type, as the three
fetch loops in `analyze_select` do. -/
def applyFetches (k : Kind) (fetch : Option (List Str)) (ctx : AnalyzerContext) : Kind :=
  match fetch with
  | none => k
  | some fs => fs.foldl (fun acc f => resolveFetch acc (fetchSegments f) ctx) k

/-- `should_omit_field`: the field idiom appears verbatim in the OMIT
clause. -/
def shouldOmitField (fieldPath : Idiom) (omits : Option (List Idiom)) : Bool :=
  match omits with
  | some is => is.any (fun oi => fieldPath == oi)
  | none => false

/-- `normalized_part`: a part rendered in lowercase with surrounding
whitespace removed. -/
def normalizedPart (p : Part) : Str := normStr (partToString p)

/-- `remove_nested_field`: removal of an omitted (possibly dotted) path from
an object map.  A one-segment path removes every key whose normalization
matches; a longer path recurses into the literal-object values of matching
keys. -/
def removeNestedField (obj : List (Str × Kind)) (path : List Part) : List (Str × Kind) :=
  match path with
  | [] => obj
  | [p] =>
    let omitKey := normalizedPart p
    obj.filter (fun kv => !(normStr kv.1 == omitKey))
  | p :: rest =>
    let omitKey := normalizedPart p
    obj.map (fun kv =>
      if normStr kv.1 == omitKey then
        match kv.2 with
        | .litObject nested => (kv.1, Kind.litObject (removeNestedField nested rest))
        | _ => kv
      else kv)

/-- The `build_full_table_type` local to `select.rs`: the full table object
with the OMIT paths removed (always returns `Ok` in the source, hence
total). -/
def buildFullTableTypeSel (ctx : AnalyzerContext) (tableName : Str)
    (omits : Option (List Idiom)) : Kind :=
  let base := (ctx.getFieldDefinitions tableName).foldl
    (fun m fd =>
      match fd.kind with
      | some k => btInsert m (idiomToString fd.name) k
      | none => m) []
  match omits with
  | some is => .litObject (is.foldl (fun m oi => removeNestedField m oi) base)
  | none => .litObject base

/-- Resolution of the first FROM-clause value to a raw table name
(`analyze_select` lines 48-167, on the modeled value fragment).  The
`"$token"` parameter arm is a `todo!()` in the source, i.e. a panic. -/
def resolveFromTarget (ctx : AnalyzerContext) : Value → AOut Str
  | .table t => .ok t
  | .thing tb _ => .ok tb
  | .param p =>
    if strTrim p == str "$auth" then
      match ctx.auth with
      | some a => .ok a
      | none => .err .missingAuth
    else if strTrim p == str "$token" then .panic
    else .err .unexpectedSyntax
  | .object _ => .err .unexpectedSyntax

/-- The explicit-field loop of `analyze_select` (lines 218-324) on the
modeled fragment: omitted fields are skipped, each remaining plain field must
have a definition (else `FieldNotFound`), its declared type has every FETCH
entry applied, and the result is keyed by the alias (if any) or the rendered
idiom.  Graph-traversal and destructure branches fire only on `Part` shapes
outside the fragment. -/
def buildExplicitFields (ctx : AnalyzerContext) (tableName : Str)
    (omits : Option (List Idiom)) (fetch : Option (List Str)) :
    List SelectField → List (Str × Kind) → AOut (List (Str × Kind))
  | [], acc => .ok acc
  | .all :: _, _ => .err .unexpectedSyntax
  | .single fieldIdiom aliasName :: rest, acc =>
    if shouldOmitField fieldIdiom omits then
      buildExplicitFields ctx tableName omits fetch rest acc
    else
      match ctx.findFieldDefinition tableName fieldIdiom with
      | some fd =>
        let resolved := applyFetches (fd.kind.getD .any) fetch ctx
        let fieldName :=
          match aliasName with
          | some a => idiomToString a
          | none => idiomToString fieldIdiom
        buildExplicitFields ctx tableName omits fetch rest (btInsert acc fieldName resolved)
      | none => .err (.fieldNotFound (idiomToString fieldIdiom) tableName)

/-- `analyze_select` (`statements/data/select.rs`) on the modeled fragment:
resolve the first FROM target (erroring with `UnexpectedSyntax` on an empty
FROM clause), strip a record id, require the table to be defined
(`TableNotFound` otherwise); in VALUE mode require exactly one field and
return `Literal::Array([resolved field type])`; otherwise build the base
object (full table schema minus OMIT for a wildcard or empty field list, the
explicit-field object else), apply the FETCH clause to it, and wrap in
`Array` unless `ONLY`. -/
def analyzeSelect (ctx : AnalyzerContext) (stmt : SelectStatement) : AOut Kind :=
  match stmt.what.head? with
  | none => .err .unexpectedSyntax
  | some targetValue =>
    match resolveFromTarget ctx targetValue with
    | .panic => .panic
    | .err e => .err e
    | .ok rawTableName =>
      let tableName := stripRecordId rawTableName
      if (ctx.findTableDefinition tableName).isNone then
        .err (.tableNotFound tableName)
      else if stmt.isValue then
        if stmt.exprFields.length != 1 then .err .unexpectedSyntax
        else
          match stmt.exprFields.head? with
          | some (.single fieldIdiom _alias) =>
            match ctx.findFieldDefinition tableName fieldIdiom with
            | some fd =>
              .ok (.litArray [applyFetches (fd.kind.getD .any) stmt.fetch ctx])
            | none => .err (.fieldNotFound (idiomToString fieldIdiom) tableName)
          | _ => .err .unexpectedSyntax
      else
        let base :=
          if stmt.exprFields.isEmpty ||
             stmt.exprFields.any (fun f => match f with | .all => true | _ => false) then
            AOut.ok (buildFullTableTypeSel ctx tableName stmt.omitClause)
          else
            match buildExplicitFields ctx tableName stmt.omitClause stmt.fetch
                stmt.exprFields [] with
            | .ok m => .ok (Kind.litObject m)
            | .err e => .err e
            | .panic => .panic
        match base with
        | .panic => .panic
        | .err e => .err e
        | .ok baseKind =>
          let transformed := applyFetches baseKind stmt.fetch ctx
          if stmt.only then .ok transformed
          else .ok (.array transformed none)

/-- Embedding of `surrealdb::sql::Data` (the assignment payload of data
statements), covering the variants `analyze_create` inspects. -/
inductive Data where
  | contentExpression (v : Value)
  | singleExpression (v : Value)
  | valuesExpression (vs : List (List (Idiom × Value)))
  | setExpression (sets : List (Idiom × Value))
  | mergeExpression (v : Value)
  | patchExpression (v : Value)
  | replaceExpression (v : Value)
  | updateExpression (updates : List (Idiom × Value))
  | emptyExpression
  | unsetExpression (idioms : List Idiom)

/-- Embedding of `CreateStatement` restricted to the clauses `analyze_create`
consults. -/
structure CreateStatement where
  what : List Value
  data : Option Data

/-- Embedding of `DeleteStatement`; `analyze_delete` ignores every clause. -/
structure DeleteStatement where
  what : List Value
  cond : Option Value

/-- The `CONTENT { field: $param }` loop of `analyze_create`: for each object
entry holding a parameter, infer that parameter from the field (a plain
string key becomes the single-segment idiom `Idiom::from(key)`). -/
def inferObjectFieldParams (tableName : Str) :
    AnalyzerContext → List (Str × Value) → AOut AnalyzerContext
  | ctx, [] => .ok ctx
  | ctx, (fieldName, v) :: rest =>
    match v with
    | .param p =>
      match ctx.inferParamFromField tableName [Part.field fieldName] p with
      | .ok ctx2 => inferObjectFieldParams tableName ctx2 rest
      | .err e => .err e
      | .panic => .panic
    | _ => inferObjectFieldParams tableName ctx rest

/-- One value set of the `VALUES (...)` loop of `analyze_create`: infer a
parameter from the field for every `(idiom, $param)` pair. -/
def inferValueSetParams (tableName : Str) :
    AnalyzerContext → List (Idiom × Value) → AOut AnalyzerContext
  | ctx, [] => .ok ctx
  | ctx, (idiom, v) :: rest =>
    match v with
    | .param p =>
      match ctx.inferParamFromField tableName idiom p with
      | .ok ctx2 => inferValueSetParams tableName ctx2 rest
      | .err e => .err e
      | .panic => .panic
    | _ => inferValueSetParams tableName ctx rest

/-- The outer `VALUES (...)` loop of `analyze_create` over all value sets. -/
def inferValuesParams (tableName : Str) :
    AnalyzerContext → List (List (Idiom × Value)) → AOut AnalyzerContext
  | ctx, [] => .ok ctx
  | ctx, valueSet :: restSets =>
    match inferValueSetParams tableName ctx valueSet with
    | .ok ctx2 => inferValuesParams tableName ctx2 restSets
    | .err e => .err e
    | .panic => .panic

/-- The `Data` dispatch of `analyze_create` (lines 30-68): `CONTENT $p`
infers the whole table type; `CONTENT { .. }` infers per-field parameters; a
single expression that is a parameter infers the whole table type; `VALUES`
infers per-field parameters; every other variant is ignored. -/
def analyzeCreateData (ctx : AnalyzerContext) (tableName : Str) :
    Option Data → AOut AnalyzerContext
  | none => .ok ctx
  | some d =>
    match d with
    | .contentExpression v =>
      match v with
      | .param p => .ok (ctx.inferParamFromTable tableName p)
      | .object fields => inferObjectFieldParams tableName ctx fields
      | _ => .ok ctx
    | .singleExpression v =>
      match v with
      | .param p => .ok (ctx.inferParamFromTable tableName p)
      | _ => .ok ctx
    | .valuesExpression vs => inferValuesParams tableName ctx vs
    | _ => .ok ctx

/-- `analyze_create` (`statements/data/create.rs`): resolve the first `what`
value (the `what.0[0]` indexing panics on an empty list); it must resolve to
a record type whose first table names the target; run parameter inference
over the data clause; return `Array<full table type>` together with the
updated context. -/
def analyzeCreate (ctx : AnalyzerContext) (stmt : CreateStatement) :
    AOut (Kind × AnalyzerContext) :=
  match stmt.what.head? with
  | none => .panic
  | some v =>
    match ctx.resolveValue v with
    | .record tables =>
      match tables.head? with
      | some tableName =>
        match analyzeCreateData ctx tableName stmt.data with
        | .ok ctx2 => .ok (.array (ctx2.buildFullTableType tableName) none, ctx2)
        | .err e => .err e
        | .panic => .panic
      | none => .err .unexpectedSyntax
    | _ => .err .unexpectedSyntax

/-- `analyze_delete` (`statements/data/delete.rs`): always the empty literal
array, for any context and statement. -/
def analyzeDelete (_ctx : AnalyzerContext) (_stmt : DeleteStatement) : AOut Kind :=
  .ok (.litArray [])

/-- Embedding of `surrealdb::sql::Statement` for the statement kinds the
modeled batches contain. -/
inductive Statement where
  | select (s : SelectStatement)
  | create (c : CreateStatement)
  | delete (d : DeleteStatement)
  | define (d : DefineStatement)

/-- `analyze_statement` (`statements/mod.rs`) on the modeled statement kinds:
dispatch to the per-kind analyzer; a `DEFINE` statement is appended to the
context and produces `Null`.  (In the modeled fragment `DEFINE TABLE` /
`DEFINE FIELD` carry no permission, assert or default expressions, so the
extra expression analysis of `analyze_table_definition` /
`analyze_field_definition` reduces to a no-op success.) -/
def analyzeStatement (ctx : AnalyzerContext) (stmt : Statement) :
    AOut (Kind × AnalyzerContext) :=
  match stmt with
  | .select s =>
    match analyzeSelect ctx s with
    | .ok k => .ok (k, ctx)
    | .err e => .err e
    | .panic => .panic
  | .create c => analyzeCreate ctx c
  | .delete d =>
    match analyzeDelete ctx d with
    | .ok k => .ok (k, ctx)
    | .err e => .err e
    | .panic => .panic
  | .define d => .ok (.null, { ctx with definitions := ctx.definitions ++ [d] })

/-- The statement loop of `analyze` (`analyzer/mod.rs` lines 55-70): analyze
each statement in order against the evolving context, collecting the result
kinds and short-circuiting on the first error (or panic). -/
def analyzeAll (ctx : AnalyzerContext) :
    List Statement → AOut (List Kind × AnalyzerContext)
  | [] => .ok ([], ctx)
  | stmt :: rest =>
    match analyzeStatement ctx stmt with
    | .ok (k, ctx2) =>
      match analyzeAll ctx2 rest with
      | .ok (ks, ctx3) => .ok (k :: ks, ctx3)
      | .err e => .err e
      | .panic => .panic
    | .err e => .err e
    | .panic => .panic

/-- The post-parse part of the top-level `analyze` (`analyzer/mod.rs` lines
55-86): run every statement, then combine — an empty batch is `Null`, a
single-statement batch is wrapped as `Kind::Array(first, None)`, a longer
batch yields the last statement's kind (`kinds.last()`, with `Null` for its
unreachable `None` case).  The parser invocation and the remapping of
`UnexpectedSyntax` errors to a positional message are outside the modeled
fragment (the remap only rewrites the error payload, never a success
value). -/
def analyzeBatch (ctx : AnalyzerContext) (stmts : List Statement) : AOut Kind :=
  match analyzeAll ctx stmts with
  | .ok (kinds, _) =>
    match kinds with
    | [] => .ok .null
    | [k] => .ok (.array k none)
    | ks => .ok (ks.getLastD .null)
  | .err e => .err e
  | .panic => .panic

/-- Occurrence of a `Record` variant anywhere inside a type (auxiliary
notion for the dangling-link properties; not part of the source). -/
inductive HasRecord : Kind → Prop where
  | record (tables : List Str) : HasRecord (.record tables)
  | option {inner : Kind} : HasRecord inner → HasRecord (.option inner)
  | array {inner : Kind} {len : Option Nat} : HasRecord inner → HasRecord (.array inner len)
  | either {ks : List Kind} {k : Kind} : k ∈ ks → HasRecord k → HasRecord (.either ks)
  | litArray {ks : List Kind} {k : Kind} : k ∈ ks → HasRecord k → HasRecord (.litArray ks)
  | litObject {fields : List (Str × Kind)} {s : Str} {k : Kind} :
      (s, k) ∈ fields → HasRecord k → HasRecord (.litObject fields)
  | litDiscObject {d : Str} {variants : List (List (Str × Kind))}
      {v : List (Str × Kind)} {s : Str} {k : Kind} :
      v ∈ variants → (s, k) ∈ v → HasRecord k → HasRecord (.litDiscObject d variants)

/-- Embedding of the `Type` model of `analyzer/model/types.rs` (its
`TypeKind`), used by the second context evolution `analyzer/context/mod.rs`.
The `TypeMetadata` attached to each `Type` wraps external `surrealdb`
permission/value payloads that none of the modeled context operations
inspect, so it is not carried here. -/
inductive TypeV2 where
  | null
  | bool
  | number
  | string
  | duration
  | datetime
  | uuid
  | geometry
  | bytes
  | array (inner : TypeV2)
  | object (fields : List (Str × TypeV2))
  | union (variants : List TypeV2)
  | record (table : Str)
  | param (name : Str)
  | any
  | unknown

/-- `SchemaContext` of `analyzer/context/schema.rs`: tables, analyzers and
validation rules (`HashMap`s embedded as association lists; a validation rule
is its description/condition strings and severity tag). -/
structure SchemaContextV2 where
  tables : List (Str × TypeV2)
  analyzers : List (Str × TypeV2)
  validationRules : List (Str × (Str × Str))

/-- `ParamsContext` of `analyzer/context/params.rs`: parameters and local
variables (the source field `variables` is `localVariables` here, `variable`
being reserved). -/
structure ParamsContextV2 where
  parameters : List (Str × TypeV2)
  localVariables : List (Str × TypeV2)

/-- `ParamsContext::new`: both maps empty. -/
def ParamsContextV2.new : ParamsContextV2 := ⟨[], []⟩

/-- `ParamsContext::add_parameter`: insert into the parameter map (replacing
an existing binding for the same name, as `HashMap::insert` does). -/
def ParamsContextV2.addParameter (pc : ParamsContextV2) (name : Str) (paramType : TypeV2) :
    ParamsContextV2 :=
  { pc with parameters :=
      if pc.parameters.any (fun kv => kv.1 == name) then
        pc.parameters.map (fun kv => if kv.1 == name then (name, paramType) else kv)
      else
        pc.parameters ++ [(name, paramType)] }

/-- `ParamsContext::get_parameter_type`: look the name up in the parameter
map. -/
def ParamsContextV2.getParameterType (pc : ParamsContextV2) (name : Str) : Option TypeV2 :=
  (pc.parameters.find? (fun kv => kv.1 == name)).map (·.2)

/-- `FunctionsContext` of `analyzer/context/functions.rs`: function name to
signature (parameter types, return type, volatility flag). -/
structure FunctionsContextV2 where
  functions : List (Str × (List TypeV2 × TypeV2 × Bool))

/-- `IndexesContext` of `analyzer/context/indexes.rs`: index name to
definition (table, fields, index type tag). -/
structure IndexesContextV2 where
  indexes : List (Str × (Str × List Str × Str))

/-- `EventsContext` of `analyzer/context/events.rs`: event name to definition
(change kind and trigger tags, trigger table, optional condition type, action
type). -/
structure EventsContextV2 where
  events : List (Str × (Str × Str × Str × Option TypeV2 × TypeV2))

/-- `TokensContext` of `analyzer/context/tokens.rs`: token name to definition
(roles and optional expiration; the `Permissions` payload is an external
`surrealdb` value no modeled operation inspects). -/
structure TokensContextV2 where
  tokens : List (Str × (List Str × Option Int))

/-- The `AnalyzerContext` of the second evolution `analyzer/context/mod.rs`:
composition of the six sub-contexts. -/
structure AnalyzerContextV2 where
  schema : SchemaContextV2
  params : ParamsContextV2
  functions : FunctionsContextV2
  indexes : IndexesContextV2
  events : EventsContextV2
  tokens : TokensContextV2

/-- `AnalyzerContext::create_child` (`context/mod.rs` lines 49-58): value
copies of the schema/function/index/event/token state and a brand-new params
context.  Rust's `clone` on these owned `HashMap`-based structs is a deep
value copy, so the child shares no mutable state with the parent. -/
def AnalyzerContextV2.createChild (ctx : AnalyzerContextV2) : AnalyzerContextV2 :=
  { schema := ctx.schema
    params := ParamsContextV2.new
    functions := ctx.functions
    indexes := ctx.indexes
    events := ctx.events
    tokens := ctx.tokens }

/-- A parameter-inference mutation performed on a (child) context:
`ctx.params.add_parameter(..)` through the composed context. -/
def AnalyzerContextV2.addParameter (ctx : AnalyzerContextV2) (name : Str)
    (paramType : TypeV2) : AnalyzerContextV2 :=
  { ctx with params := ctx.params.addParameter name paramType }

/-- Concrete schema for the fetch scenarios: table `a` with `f: record<b>`,
table `b` with `g: record<c>`, table `c` (empty). -/
def ctxC2 : AnalyzerContext :=
  ⟨[.table ⟨str "a"⟩,
    .field ⟨str "a", [.field (str "f")], some (.record [str "b"])⟩,
    .table ⟨str "b"⟩,
    .field ⟨str "b", [.field (str "g")], some (.record [str "c"])⟩,
    .table ⟨str "c"⟩], [], none, []⟩

/-- Concrete schema with just table `a` defined and no fields. -/
def ctxOnlyA : AnalyzerContext := ⟨[.table ⟨str "a"⟩], [], none, []⟩

/-- Concrete schema of the `fetch_record_link` scenario: `user` with
`name: string, age: number`; `post` with `author: record<user>`. -/
def ctxPost : AnalyzerContext :=
  ⟨[.table ⟨str "user"⟩,
    .field ⟨str "user", [.field (str "name")], some .string⟩,
    .field ⟨str "user", [.field (str "age")], some .number⟩,
    .table ⟨str "post"⟩,
    .field ⟨str "post", [.field (str "author")], some (.record [str "user"])⟩], [], none, []⟩

/-- Concrete schema of the parameter-inference scenario: `user` with
`email: string, age: number`. -/
def ctxUser : AnalyzerContext :=
  ⟨[.table ⟨str "user"⟩,
    .field ⟨str "user", [.field (str "email")], some .string⟩,
    .field ⟨str "user", [.field (str "age")], some .number⟩], [], none, []⟩

/-- C4: for every analyzer context and every DELETE statement — whatever the
schema, target table and WHERE clause — statement analysis succeeds and
returns the empty literal-array type `Literal::Array([])`, both through
`analyze_delete` itself and through the statement dispatcher. -/
theorem delete_always_empty_array (ctx : AnalyzerContext) (stmt : DeleteStatement) :
    analyzeDelete ctx stmt = .ok (.litArray []) ∧
    analyzeStatement ctx (.delete stmt) = .ok (.litArray [], ctx) :=
  ⟨rfl, rfl⟩

/-- C10: `analyze_select` reads only the first FROM-clause target — for any
trailing targets the result (and, through the dispatcher, the untouched
context and with it the inferred parameters) is identical to analyzing the
statement with the first target alone — and a SELECT with an empty FROM
clause fails with `UnexpectedSyntax`. -/
theorem select_ignores_later_from_targets (ctx : AnalyzerContext)
    (fs : List SelectField) (iv : Bool) (v : Value) (vs : List Value)
    (om : Option (List Idiom)) (onl : Bool) (ft : Option (List Str)) :
    analyzeSelect ctx ⟨fs, iv, v :: vs, om, onl, ft⟩ =
      analyzeSelect ctx ⟨fs, iv, [v], om, onl, ft⟩ ∧
    analyzeStatement ctx (.select ⟨fs, iv, v :: vs, om, onl, ft⟩) =
      analyzeStatement ctx (.select ⟨fs, iv, [v], om, onl, ft⟩) ∧
    analyzeSelect ctx ⟨fs, iv, [], om, onl, ft⟩ = .err .unexpectedSyntax :=
  ⟨rfl, rfl, rfl⟩

/-- C8 (code bug): a SELECT whose FROM target is the parameter `$token`
reaches the `todo!("Implement token inference")` arm of `analyze_select` and
panics instead of returning a result, for every context and whatever the
rest of the statement. -/
theorem select_from_token_param_panics (ctx : AnalyzerContext)
    (fs : List SelectField) (iv : Bool) (vs : List Value)
    (om : Option (List Idiom)) (onl : Bool) (ft : Option (List Str)) :
    analyzeSelect ctx ⟨fs, iv, .param (str "$token") :: vs, om, onl, ft⟩ = .panic :=
  rfl

/-- C9: `create_child` copies the parent's schema/function/index/event/token
state and starts with a fresh, empty parameter list (no parent parameter is
visible in the child), and a parameter added inside the child lands only in
the child's own parameter list while the catalog state it shares with the
parent stays the parent's — the parent value itself is never modified, since
every sub-context is an owned deep copy. -/
theorem create_child_fresh_params_isolated (p : AnalyzerContextV2) (n : Str) (ty : TypeV2) :
    (p.createChild).schema = p.schema ∧
    (p.createChild).functions = p.functions ∧
    (p.createChild).indexes = p.indexes ∧
    (p.createChild).events = p.events ∧
    (p.createChild).tokens = p.tokens ∧
    (p.createChild).params = ParamsContextV2.new ∧
    (p.createChild).params.getParameterType n = none ∧
    ((p.createChild).addParameter n ty).schema = p.schema ∧
    ((p.createChild).addParameter n ty).params.parameters = [(n, ty)] := by
  refine ⟨rfl, rfl, rfl, rfl, rfl, rfl, rfl, rfl, ?_⟩
  simp [AnalyzerContextV2.addParameter, AnalyzerContextV2.createChild,
    ParamsContextV2.addParameter, ParamsContextV2.new]

/-- C1 (counterexample): a batch consisting of exactly one statement does
not analyze to that statement's type — a single DELETE analyzes to
`Array(Literal::Array([]), None)`, a wrapper around the statement's
`Literal::Array([])` type — and a DEFINE statement is not skipped when it is
last: a DELETE followed by a DEFINE analyzes to `Null`, not to the DELETE's
type. -/
theorem analyze_batch_single_statement_wrapped :
    analyzeBatch AnalyzerContext.new [.delete ⟨[], none⟩] =
      .ok (.array (.litArray []) none) ∧
    AOut.ok (Kind.array (.litArray []) none) ≠ AOut.ok (Kind.litArray []) ∧
    analyzeBatch AnalyzerContext.new [.delete ⟨[], none⟩, .define (.table ⟨str "t"⟩)] =
      .ok .null := by
  refine ⟨rfl, ?_, rfl⟩
  intro h
  injection h with h2
  exact Kind.noConfusion h2

/-- C1 (amended): when every statement of the batch analyzes successfully,
the top-level `analyze` combines the per-statement kinds as the code does —
an empty batch yields `Null`, a single-statement batch yields
`Array(first, None)` (a wrapper, not the statement's type itself), and a
batch of two or more statements yields the last statement's kind, DEFINE
statements included (they contribute `Null` and are not skipped). -/
theorem analyze_batch_result (ctx ctx2 : AnalyzerContext) (stmts : List Statement)
    (kinds : List Kind) (h : analyzeAll ctx stmts = .ok (kinds, ctx2)) :
    (kinds = [] → analyzeBatch ctx stmts = .ok .null) ∧
    (∀ k, kinds = [k] → analyzeBatch ctx stmts = .ok (.array k none)) ∧
    (2 ≤ kinds.length → analyzeBatch ctx stmts = .ok (kinds.getLastD .null)) := by
  refine ⟨?_, ?_, ?_⟩
  · rintro rfl
    unfold analyzeBatch
    rw [h]
  · rintro k rfl
    unfold analyzeBatch
    rw [h]
  · intro hlen
    rcases kinds with _ | ⟨a, _ | ⟨b, t⟩⟩
    · simp at hlen
    · simp at hlen
    · unfold analyzeBatch
      rw [h]

/-- C1 (witness): the amended theorem at a concrete two-statement batch —
two DELETE statements analyze to the last statement's `Literal::Array([])`
type. -/
theorem analyze_batch_result_witness :
    analyzeBatch AnalyzerContext.new [.delete ⟨[], none⟩, .delete ⟨[], none⟩] =
      .ok (Kind.litArray []) :=
  (analyze_batch_result AnalyzerContext.new AnalyzerContext.new
    [.delete ⟨[], none⟩, .delete ⟨[], none⟩] [.litArray [], .litArray []] rfl).2.2
    (by decide)

/-- C6 (amended): selecting from an undefined table fails with
`TableNotFound` naming the (record-id-stripped) table, for every field list
and mode; and selecting a single explicitly listed plain field that has no
field definition on a defined table fails with `FieldNotFound` naming that
field — provided the field does not also appear in the OMIT clause, in which
case the field loop skips it before the lookup. -/
theorem select_unknown_table_unknown_field_errors :
    (∀ (ctx : AnalyzerContext) (fs : List SelectField) (iv : Bool) (n : Str)
       (vs : List Value) (om : Option (List Idiom)) (onl : Bool) (ft : Option (List Str)),
       ctx.findTableDefinition (stripRecordId n) = none →
       analyzeSelect ctx ⟨fs, iv, .table n :: vs, om, onl, ft⟩ =
         .err (.tableNotFound (stripRecordId n))) ∧
    (∀ (ctx : AnalyzerContext) (n : Str) (vs : List Value) (om : Option (List Idiom))
       (onl : Bool) (ft : Option (List Str)) (fid : Idiom) (al : Option Idiom),
       (ctx.findTableDefinition (stripRecordId n)).isSome →
       shouldOmitField fid om = false →
       ctx.findFieldDefinition (stripRecordId n) fid = none →
       analyzeSelect ctx ⟨[.single fid al], false, .table n :: vs, om, onl, ft⟩ =
         .err (.fieldNotFound (idiomToString fid) (stripRecordId n))) := by
  constructor
  · intro ctx fs iv n vs om onl ft hnone
    simp [analyzeSelect, resolveFromTarget, hnone]
  · intro ctx n vs om onl ft fid al ht hom hnf
    obtain ⟨d, hd⟩ := Option.isSome_iff_exists.mp ht
    simp [analyzeSelect, resolveFromTarget, hd, buildExplicitFields, hom, hnf]

/-- C6 (witness): the amended theorem at concrete inputs — selecting from
the never-defined table `zzz` fails with `TableNotFound "zzz"`, and
selecting the undeclared field `q` from the defined table `a` fails with
`FieldNotFound "q"`. -/
theorem select_unknown_table_unknown_field_errors_witness :
    analyzeSelect AnalyzerContext.new ⟨[.all], false, [.table (str "zzz")], none, false, none⟩ =
      .err (.tableNotFound (stripRecordId (str "zzz"))) ∧
    analyzeSelect ctxOnlyA ⟨[.single [.field (str "q")] none], false, [.table (str "a")],
        none, false, none⟩ =
      .err (.fieldNotFound (idiomToString [.field (str "q")]) (stripRecordId (str "a"))) :=
  ⟨select_unknown_table_unknown_field_errors.1 AnalyzerContext.new [.all] false
      (str "zzz") [] none false none rfl,
   select_unknown_table_unknown_field_errors.2 ctxOnlyA (str "a") [] none false none
      [.field (str "q")] none rfl rfl rfl⟩

/-- C6 (counterexample): the claim fails as stated when the selected field
also appears in the OMIT clause — on a schema defining only table `a`, the
statement `SELECT f FROM a OMIT f` explicitly selects the plain field `f`,
which has no field definition, yet analysis succeeds with an empty object
type instead of failing with `FieldNotFound`. -/
theorem select_omitted_unknown_field_succeeds :
    ctxOnlyA.findFieldDefinition (str "a") [.field (str "f")] = none ∧
    analyzeSelect ctxOnlyA ⟨[.single [.field (str "f")] none], false, [.table (str "a")],
        some [[.field (str "f")]], false, none⟩ =
      .ok (.array (.litObject []) none) :=
  ⟨rfl, rfl⟩

/-- C7: a whole-payload parameter in a CREATE CONTENT clause is inferred as
the target table's full `Literal::Object` type — starting from a context
with no inferred parameters, `CREATE t CONTENT $p` succeeds and registers
exactly the one parameter `p` with type `build_full_table_type t`. -/
theorem create_content_whole_payload_param (ctx : AnalyzerContext) (t p : Str)
    (h : ctx.inferredParams = []) :
    analyzeCreate ctx ⟨[.table t], some (.contentExpression (.param p))⟩ =
      .ok (.array (ctx.buildFullTableType t) none,
           { ctx with inferredParams := [(p, ctx.buildFullTableType t)] }) := by
  simp [analyzeCreate, AnalyzerContext.resolveValue, analyzeCreateData,
    AnalyzerContext.inferParamFromTable, AnalyzerContext.addInferredParam,
    AnalyzerContext.buildFullTableType, AnalyzerContext.getFieldDefinitions, h]

/-- C7 (witness): on the schema `user{email: string, age: number}`,
`CREATE user CONTENT $u` registers exactly one inferred parameter, named
`u`, whose type is the full table schema — the literal object with
`age: number` and `email: string` (a `BTreeMap` keyed by field name). -/
theorem create_content_whole_payload_param_witness :
    analyzeCreate ctxUser ⟨[.table (str "user")], some (.contentExpression (.param (str "u")))⟩ =
      .ok (.array (ctxUser.buildFullTableType (str "user")) none,
           { ctxUser with
              inferredParams := [(str "u", ctxUser.buildFullTableType (str "user"))] }) ∧
    ctxUser.buildFullTableType (str "user") =
      .litObject [(str "age", .number), (str "email", .string)] :=
  ⟨create_content_whole_payload_param ctxUser (str "user") (str "u") rfl, rfl⟩

/-- An empty fetch chain leaves a literal object unchanged (the catch-all arm
of `resolve_fetch`'s empty-chain case). -/
theorem resolveFetch_nil_litObject (m : List (Str × Kind)) (ctx : AnalyzerContext) :
    resolveFetch (.litObject m) [] ctx = .litObject m := by
  simp [resolveFetch]

/-- An empty fetch chain expands a bare record link into the first table's
full schema (terminal expansion). -/
theorem resolveFetch_nil_record_cons (t : Str) (ts : List Str) (ctx : AnalyzerContext) :
    resolveFetch (.record (t :: ts)) [] ctx = ctx.buildFullTableType t := by
  simp [resolveFetch]

/-- An empty fetch chain leaves a full-table type unchanged (it is a literal
object). -/
theorem resolveFetch_nil_buildFull (ctx ctx2 : AnalyzerContext) (t : Str) :
    resolveFetch (ctx.buildFullTableType t) [] ctx2 = ctx.buildFullTableType t := by
  unfold AnalyzerContext.buildFullTableType
  simp [resolveFetch]

/-- C3 (amended): with a nonempty chain, fetch resolution of an `Array`
applies resolution to the inner type with the same chain, and a matching
literal-object field holding `Array<Record>` is force-expanded into a
literal array of the first table's full schema regardless of the remaining
chain; but with an empty chain an `Array` — in particular an `Array` whose
element type is a `Record` — is returned unchanged, so such an array can
survive fetch resolution unexpanded. -/
theorem resolve_fetch_array_recursion_and_forced_expansion
    (ctx : AnalyzerContext) (inner : Kind) (len alen : Option Nat) (s : Str)
    (rest : List Str) (key B : Str) (bs : List Str)
    (hkey : (normStr key == s) = true) :
    resolveFetch (.array inner len) (s :: rest) ctx =
      .array (resolveFetch inner (s :: rest) ctx) len ∧
    resolveFetch (.litObject [(key, .array (.record (B :: bs)) alen)]) (s :: rest) ctx =
      .litObject [(key, .litArray [ctx.buildFullTableType B])] ∧
    resolveFetch (.array inner len) [] ctx = .array inner len := by
  have hk2 : normStr key = s := eq_of_beq hkey
  refine ⟨?_, ?_, ?_⟩
  · rw [resolveFetch]
  · simp [resolveFetch, hk2]
  · simp [resolveFetch]

/-- C3 (witness): the amended theorem at concrete inputs over the `ctxC2`
schema, with field key and chain segment `f`. -/
theorem resolve_fetch_array_recursion_and_forced_expansion_witness :
    resolveFetch (.array .string none) [str "f"] ctxC2 =
      .array (resolveFetch .string [str "f"] ctxC2) none ∧
    resolveFetch (.litObject [(str "f", .array (.record [str "b"]) none)]) [str "f"] ctxC2 =
      .litObject [(str "f", .litArray [ctxC2.buildFullTableType (str "b")])] ∧
    resolveFetch (.array .string none) [] ctxC2 = .array .string none :=
  resolve_fetch_array_recursion_and_forced_expansion ctxC2 .string none none
    (str "f") [] (str "f") (str "b") [] rfl

/-- C3 (counterexample): the claim fails as stated — on the `ctxC2` schema,
where table `b` is defined, fetch resolution of the bare type
`Array<Record<b>>` with an empty remaining chain returns it unchanged: the
record link inside the array is not expanded, and a `Record` variant
survives in the output. -/
theorem resolve_fetch_array_record_survives :
    (ctxC2.findTableDefinition (str "b")).isSome = true ∧
    resolveFetch (.array (.record [str "b"]) none) [] ctxC2 =
      .array (.record [str "b"]) none ∧
    HasRecord (resolveFetch (.array (.record [str "b"]) none) [] ctxC2) := by
  refine ⟨rfl, by simp [resolveFetch], ?_⟩
  have h : resolveFetch (.array (.record [str "b"]) none) [] ctxC2 =
      .array (.record [str "b"]) none := by simp [resolveFetch]
  rw [h]
  exact .array (.record _)

/-- C5 (amended): VALUE-mode SELECT over a defined table requires exactly one
field expression — any other field count is an `UnexpectedSyntax` error —
and returns `Literal::Array([fieldType])`; `fieldType` is the selected
field's declared type with fetch resolution of any FETCH clauses applied, so
in the absence of a FETCH clause it is the declared type itself. -/
theorem select_value_mode (ctx : AnalyzerContext) (t : Str) (fs : List SelectField)
    (om om2 : Option (List Idiom)) (onl onl2 : Bool) (ft : Option (List Str))
    (fid : Idiom) (al : Option Idiom) (fd : DefineFieldStatement) (k : Kind)
    (hstrip : stripRecordId t = t)
    (ht : (ctx.findTableDefinition t).isSome)
    (hlen : fs.length ≠ 1)
    (hf : ctx.findFieldDefinition t fid = some fd)
    (hk : fd.kind = some k) :
    analyzeSelect ctx ⟨fs, true, [.table t], om, onl, ft⟩ = .err .unexpectedSyntax ∧
    analyzeSelect ctx ⟨[.single fid al], true, [.table t], om2, onl2, none⟩ =
      .ok (.litArray [k]) := by
  obtain ⟨d, hd⟩ := Option.isSome_iff_exists.mp ht
  have hb : (fs.length != 1) = true := by simpa [bne_iff_ne] using hlen
  constructor
  · simp [analyzeSelect, resolveFromTarget, hstrip, hd, hb]
  · simp [analyzeSelect, resolveFromTarget, hstrip, hd, hf, hk, applyFetches]

/-- C5 (witness): the amended theorem on the schema `user{email: string,
age: number}` — a VALUE-mode SELECT with an empty field list errors, and
`SELECT VALUE email FROM user` yields `Literal::Array([String])`. -/
theorem select_value_mode_witness :
    analyzeSelect ctxUser ⟨[], true, [.table (str "user")], none, false, none⟩ =
      .err .unexpectedSyntax ∧
    analyzeSelect ctxUser ⟨[.single [.field (str "email")] none], true,
        [.table (str "user")], none, false, none⟩ =
      .ok (.litArray [.string]) :=
  select_value_mode ctxUser (str "user") [] none none false false none
    [.field (str "email")] none ⟨str "user", [.field (str "email")], some .string⟩
    .string rfl rfl (by decide) rfl rfl

/-- C5 (counterexample): the claim fails as stated when a FETCH clause names
a table of the field's record type — on the `ctxPost` schema, the field
`author` of `post` is declared `record<user>`, yet
`SELECT VALUE author FROM post FETCH user` returns the expanded `user`
schema inside the literal array, not the declared `record<user>` type. -/
theorem select_value_fetch_overrides_declared_type :
    (ctxPost.findFieldDefinition (str "post") [.field (str "author")]).map
        DefineFieldStatement.kind = some (some (.record [str "user"])) ∧
    analyzeSelect ctxPost ⟨[.single [.field (str "author")] none], true,
        [.table (str "post")], none, false, some [str "user"]⟩ =
      .ok (.litArray [.litObject [(str "age", .number), (str "name", .string)]]) ∧
    ¬ analyzeSelect ctxPost ⟨[.single [.field (str "author")] none], true,
        [.table (str "post")], none, false, some [str "user"]⟩ =
      .ok (.litArray [.record [str "user"]]) := by
  have hres : analyzeSelect ctxPost ⟨[.single [.field (str "author")] none], true,
      [.table (str "post")], none, false, some [str "user"]⟩ =
      .ok (.litArray [.litObject [(str "age", .number), (str "name", .string)]]) := by
    simp +decide [analyzeSelect, resolveFromTarget, stripRecordId, applyFetches,
      fetchSegments, AnalyzerContext.findFieldDefinition, AnalyzerContext.findFieldExact,
      AnalyzerContext.findFieldRev, AnalyzerContext.findTableDefinition, resolveFetch,
      AnalyzerContext.buildFullTableType, AnalyzerContext.getFieldDefinitions, btInsert,
      idiomToString, partToString, normStr, strTrim, strToLower, splitOnChar, ctxPost, str,
      strLt]
  refine ⟨rfl, hres, ?_⟩
  rw [hres]
  intro hcontra
  injection hcontra with h1
  injection h1 with h2
  injection h2 with h3 h4
  exact Kind.noConfusion h3

/-- C2 (amended): analyzing `SELECT f FROM A FETCH f` when `A` has the field
`f` declared `record<B>` replaces the record link with `B`'s full
`Literal::Object` schema (terminal expansion once the chain is exhausted);
record links among `B`'s own fields are carried over from `B`'s schema as
they are, without recursive expansion. -/
theorem select_fetch_expands_record_link (ctx : AnalyzerContext) (A B f : Str)
    (fd : DefineFieldStatement)
    (hstrip : stripRecordId A = A)
    (ht : (ctx.findTableDefinition A).isSome)
    (hf : ctx.findFieldDefinition A [.field f] = some fd)
    (hk : fd.kind = some (.record [B]))
    (hsplit : fetchSegments f = [normStr f]) :
    analyzeSelect ctx ⟨[.single [.field f] none], false, [.table A], none, false, some [f]⟩ =
      .ok (.array (.litObject [(f, ctx.buildFullTableType B)]) none) := by
  obtain ⟨d, hd⟩ := Option.isSome_iff_exists.mp ht
  have key1 : (normStr f == normStr f) = true := beq_self_eq_true _
  have hres : resolveFetch (.record [B]) [normStr f] ctx = ctx.buildFullTableType B ∨
      resolveFetch (.record [B]) [normStr f] ctx = .record [B] := by
    by_cases hb : normStr B = normStr (normStr f)
    · left
      rw [resolveFetch]
      simp [hb, resolveFetch_nil_buildFull]
    · right
      rw [resolveFetch]
      simp [hb]
  have hbase : buildExplicitFields ctx A none (some [f]) [.single [.field f] none] [] =
      .ok [(f, resolveFetch (.record [B]) [normStr f] ctx)] := by
    simp [buildExplicitFields, shouldOmitField, hf, hk, applyFetches, hsplit,
      idiomToString, partToString, btInsert]
  have hfinal : resolveFetch
      (.litObject [(f, resolveFetch (.record [B]) [normStr f] ctx)]) [normStr f] ctx =
      .litObject [(f, ctx.buildFullTableType B)] := by
    rcases hres with hres | hres <;> rw [hres, resolveFetch]
    · conv_lhs => rw [AnalyzerContext.buildFullTableType]
      simp [key1, resolveFetch_nil_litObject]
      rw [← AnalyzerContext.buildFullTableType]
    · simp [key1, resolveFetch_nil_record_cons]
  simp [analyzeSelect, resolveFromTarget, hstrip, hd, hbase, applyFetches, hsplit, hfinal]

/-- C2 (witness): the amended theorem on the `ctxC2` schema — fetching `f`
on `SELECT f FROM a` replaces `record<b>` with `b`'s full schema. -/
theorem select_fetch_expands_record_link_witness :
    analyzeSelect ctxC2 ⟨[.single [.field (str "f")] none], false, [.table (str "a")],
        none, false, some [str "f"]⟩ =
      .ok (.array (.litObject [(str "f", ctxC2.buildFullTableType (str "b"))]) none) :=
  select_fetch_expands_record_link ctxC2 (str "a") (str "b") (str "f")
    ⟨str "a", [.field (str "f")], some (.record [str "b"])⟩ rfl rfl rfl rfl rfl

/-- C2 (counterexample): the claim fails as stated — on the `ctxC2` schema,
where `a.f` is `record<b>` and `b.g` is `record<c>`, analyzing
`SELECT f FROM a FETCH f` produces a result whose `f` subtree is `b`'s full
schema `{ g: record<c> }`, and a `Record` variant does occur inside that
subtree. -/
theorem select_fetch_leaves_nested_record :
    analyzeSelect ctxC2 ⟨[.single [.field (str "f")] none], false, [.table (str "a")], none,
        false, some [str "f"]⟩ =
      .ok (.array (.litObject [(str "f", .litObject [(str "g", .record [str "c"])])]) none) ∧
    HasRecord (.litObject [(str "g", .record [str "c"])]) := by
  constructor
  · simp +decide [analyzeSelect, resolveFromTarget, stripRecordId, buildExplicitFields,
      applyFetches, fetchSegments, shouldOmitField, AnalyzerContext.findFieldDefinition,
      AnalyzerContext.findFieldExact, AnalyzerContext.findFieldRev,
      AnalyzerContext.findTableDefinition, resolveFetch, AnalyzerContext.buildFullTableType,
      AnalyzerContext.getFieldDefinitions, btInsert, idiomToString, partToString, normStr,
      strTrim, strToLower, splitOnChar, ctxC2, str]
  · exact .litObject (List.Mem.head _) (.record _)

end SurrealGuard
